import Mathlib

/-!
Verification of the credential resolver and profile store of the
browser-use E2E test support code (`conftest.py`, `setup_profile.py`).

The Python code is shallowly embedded:

* an environment (`os.environ`) is an association list `List (String × String)`
  whose `Prod.fst` components are the keys in enumeration order;
* a Python `dict` under construction is an association list where assignment
  to an existing key replaces the value in place (`dictSet`);
* Python string truthiness (`if not s`) is emptiness of the character list;
* `pathlib` paths are lists of components (see the path section below).
-/

/-- The static service-to-domain table `DOMAIN_MAP` from `conftest.py`,
in source order. -/
def DOMAIN_MAP : List (String × String) :=
  [("GITHUB", "https://*.github.com"),
   ("GITLAB", "https://*.gitlab.com"),
   ("GMAIL", "https://*.google.com"),
   ("GOOGLE", "https://*.google.com"),
   ("BITBUCKET", "https://*.bitbucket.org"),
   ("AZURE", "https://*.azure.com"),
   ("AWS", "https://*.aws.amazon.com")]

/-- Lookup in an association list: first binding wins.  Models both
`os.getenv(key)` (environment keys are unique, so first = only) and
`DOMAIN_MAP.get(prefix)`. -/
def envGet (env : List (String × String)) (k : String) : Option String :=
  (env.find? (fun e => decide (e.1 = k))).map (fun e => e.2)

/-- Python truthiness of an optional string: `None` and `""` are falsy. -/
def optTruthy : Option String → Bool
  | none => false
  | some s => !s.data.isEmpty

/-- Python `a or b` on optional strings, as used in
`os.getenv(domain_key) or DOMAIN_MAP.get(prefix)`. -/
def pyOr (a b : Option String) : Option String :=
  if optTruthy a then a else b

/-- `key.rsplit(sep, 1)[0]` for a single-character separator: everything
before the last occurrence of the separator, or the whole string when the
separator does not occur. -/
def rsplitHead (s : String) : String :=
  match s.data.reverse.dropWhile (fun c => decide (c ≠ '_')) with
  | [] => s
  | _ :: rest => String.mk rest.reverse

/-- `key.endswith(t)`: `t.data` is a suffix of `s.data`. -/
def strEndsWith (s t : String) : Bool :=
  decide (t.data <:+ s.data)

/-- `prefix.lower()` character by character (the prefixes in play are
ASCII). -/
def strLower (s : String) : String :=
  String.mk (s.data.map Char.toLower)

/-- The loop filter of `build_sensitive_data`:
`key.endswith('_USER') or key.endswith('_EMAIL')`. -/
def hasIdSuffix (k : String) : Bool :=
  strEndsWith k "_USER" || strEndsWith k "_EMAIL"

/-- The inner credential dictionaries (`placeholder -> value`). -/
abbrev SubMap := List (String × String)

/-- The resolver output: a Python dict from domain to sub-dict, as an
association list in insertion order. -/
abbrev Creds := List (String × SubMap)

/-- Python dict assignment `d[k] = v`: replace in place when `k` is already
a key, otherwise append the new binding at the end. -/
def dictSet (d : Creds) (k : String) (v : SubMap) : Creds :=
  if d.any (fun e => decide (e.1 = k)) then
    d.map (fun e => if e.1 = k then (k, v) else e)
  else
    d ++ [(k, v)]

/-- The per-key body of the `build_sensitive_data` loop after the dedup
check: look up the identity value, the `_PASS` value and the domain; `none`
when any check fails (the `continue` branches), otherwise the resolved
domain together with the two-placeholder sub-dict. -/
def resolveKey (env : List (String × String)) (key : String) :
    Option (String × SubMap) :=
  match envGet env key with
  | none => none
  | some u =>
    if u.data.isEmpty then none
    else
      match envGet env (rsplitHead key ++ "_PASS") with
      | none => none
      | some p =>
        if p.data.isEmpty then none
        else
          match pyOr (envGet env (rsplitHead key ++ "_DOMAIN"))
              (envGet DOMAIN_MAP (rsplitHead key)) with
          | none => none
          | some d =>
            if d.data.isEmpty then none
            else
              some (d, [(strLower (rsplitHead key) ++ "_user", u),
                        (strLower (rsplitHead key) ++ "_pass", p)])

/-- One iteration of the `for key in os.environ` loop of
`build_sensitive_data`.  The state is the pair
(`processed_prefixes`, `credentials`).  Note that the prefix is added to
`processed_prefixes` before the identity value is validated, exactly as in
the source. -/
def senseStep (env : List (String × String)) (st : List String × Creds)
    (key : String) : List String × Creds :=
  if hasIdSuffix key then
    if rsplitHead key ∈ st.1 then st
    else
      match resolveKey env key with
      | none => (rsplitHead key :: st.1, st.2)
      | some dm => (rsplitHead key :: st.1, dictSet st.2 dm.1 dm.2)
  else st

/-- The full loop of `build_sensitive_data` over a list of environment
keys. -/
def senseLoop (env : List (String × String)) (ks : List String)
    (st : List String × Creds) : List String × Creds :=
  ks.foldl (senseStep env) st

/-- `build_sensitive_data` from `conftest.py`, as a function of the
environment mapping (keys are enumerated in list order). -/
def build_sensitive_data (env : List (String × String)) : Creds :=
  (senseLoop env (env.map Prod.fst) ([], [])).2

example :
    build_sensitive_data [("GITHUB_USER", "alice"), ("GITHUB_PASS", "pw")]
      = [("https://*.github.com", [("github_user", "alice"), ("github_pass", "pw")])] := by
  decide

example :
    build_sensitive_data
      [("GMAIL_EMAIL", "c1"), ("GMAIL_PASS", "c2"),
       ("GOOGLE_USER", "c3"), ("GOOGLE_PASS", "c4")]
      = [("https://*.google.com", [("google_user", "c3"), ("google_pass", "c4")])] := by
  decide

example :
    build_sensitive_data
      [("GITHUB_USER", ""), ("GITHUB_EMAIL", "alice"), ("GITHUB_PASS", "pw")] = [] := by
  decide

example :
    build_sensitive_data
      [("MYAPP_USER", "u"), ("MYAPP_PASS", "p"), ("MYAPP_DOMAIN", "https://myapp.example")]
      = [("https://myapp.example", [("myapp_user", "u"), ("myapp_pass", "p")])] := by
  decide

example :
    build_sensitive_data
      [("GITHUB_USER", "u"), ("GITHUB_PASS", "p"), ("GITHUB_DOMAIN", "")]
      = [("https://*.github.com", [("github_user", "u"), ("github_pass", "p")])] := by
  decide

/-!
## Path and filesystem model

`pathlib` paths are modelled as lists of components.  Joining a path with a
string (`p / s`) follows `PurePosixPath` parsing: the string is split on
`/`, empty components and single dots are discarded, and a string starting
with `/` replaces the accumulated path (absolute reset).  The distinction
between an absolute and a relative result is not tracked beyond the
component list, which is enough for every property below.

A filesystem state is the list of existing entries, each an absolute
component path tagged with whether it is a directory.  `Path.exists()`
is true for any entry; `Path.is_dir()` only for directory entries.
-/

/-- Split a character list on `/` separators (every separator starts a new
group, as Python string splitting does). -/
def splitSlash : List Char → List (List Char)
  | [] => [[]]
  | c :: rest =>
    if c = '/' then [] :: splitSlash rest
    else
      match splitSlash rest with
      | [] => [[c]]
      | g :: gs => (c :: g) :: gs

/-- The components contributed by one `pathlib` segment string: split on
`/`, dropping empty components and single dots. -/
def pathParts (s : String) : List String :=
  ((splitSlash s.data).map (fun g => String.mk g)).filter
    (fun c => decide (c ≠ "" ∧ c ≠ "."))

/-- Whether a `pathlib` segment is absolute (starts with `/`). -/
def pathIsAbs (s : String) : Bool :=
  decide (s.data.head? = some '/')

/-- `pathlib`'s `base / s`: an absolute segment replaces `base`, otherwise
the segment's components are appended. -/
def pathJoin (base : List String) (s : String) : List String :=
  if pathIsAbs s then pathParts s else base ++ pathParts s

/-- `get_profile_path` from `conftest.py`:
`Path.home() / '.browser-use-profiles' / profile_name`, with the home
directory passed in as the ambient component list. -/
def get_profile_path (home : List String) (profile_name : String) : List String :=
  pathJoin (pathJoin home ".browser-use-profiles") profile_name

/-- A filesystem state: existing entries as (absolute path, is-directory)
pairs. -/
structure FS where
  entries : List (List String × Bool)
deriving DecidableEq

/-- `Path.exists()`: some entry (file or directory) lives at the path. -/
def pathExistsFS (fs : FS) (p : List String) : Bool :=
  fs.entries.any (fun e => decide (e.1 = p))

/-- `Path.is_dir()`: a directory entry lives at the path. -/
def isDirFS (fs : FS) (p : List String) : Bool :=
  fs.entries.any (fun e => decide (e.1 = p) && e.2)

/-- Observable outcome of the `browser_with_profile` fixture body up to the
point where the browser is handed to the test: either a `pytest.skip`
with a message, or a launched browser with the given headless flag and
`user_data_dir`. -/
inductive ProfileOutcome where
  | skip (msg : String)
  | launch (headless : Bool) (userDataDir : List String)
deriving DecidableEq

/-- The decision logic of the `browser_with_profile` fixture from
`conftest.py`: skip when nothing exists at the profile path, otherwise
launch a non-headless browser on that directory.  (The source formats the
profile name between single quotes inside the message.) -/
def browser_with_profile (fs : FS) (home : List String) (profile_name : String) :
    ProfileOutcome :=
  let profile_path := get_profile_path home profile_name
  if pathExistsFS fs profile_path then
    ProfileOutcome.launch false profile_path
  else
    ProfileOutcome.skip
      ("Profile " ++ profile_name ++ " not found. Run setup_profile.py first.")

/-- `PROFILES_DIR` from `setup_profile.py`:
`Path.home() / '.browser-use-profiles'`. -/
def PROFILES_DIR (home : List String) : List String :=
  pathJoin home ".browser-use-profiles"

/-- The name of `p` as an immediate child of `root`, when it is one. -/
def childName (root p : List String) : Option String :=
  if p.dropLast = root then p.getLast? else none

/-- Lexicographic comparison of character lists by code point, the order
Python uses on strings (and hence on paths sharing a parent). -/
def charListLe : List Char → List Char → Bool
  | [], _ => true
  | _ :: _, [] => false
  | a :: as, b :: bs =>
    if a < b then true
    else if b < a then false
    else charListLe as bs

/-- Lexicographic string order by code point. -/
def strLeB (a b : String) : Bool :=
  charListLe a.data b.data

/-- `sorted(...)` over strings: insertion sort by the lexicographic
order. -/
def sortStrs (l : List String) : List String :=
  l.insertionSort (fun a b => strLeB a b = true)

/-- `list_profiles` from `setup_profile.py`, returning the sequence of
profile names it prints.  When the root is missing it prints a notice and
yields no names; when the root exists, `iterdir()` enumerates its entries
(raising `NotADirectoryError` when the root is not a directory), keeps the
directories, and the names are printed in sorted order. -/
def list_profiles (fs : FS) (home : List String) : Except String (List String) :=
  let root := PROFILES_DIR home
  if pathExistsFS fs root then
    if isDirFS fs root then
      Except.ok (sortStrs (fs.entries.filterMap
        (fun e => if e.2 then childName root e.1 else none)))
    else
      Except.error "NotADirectoryError"
  else
    Except.ok []

example : get_profile_path ["home", "u"] "github-2fa"
    = ["home", "u", ".browser-use-profiles", "github-2fa"] := by decide

example : get_profile_path ["home", "u"] "a/b"
    = ["home", "u", ".browser-use-profiles", "a", "b"] := by decide

example :
    list_profiles
      ⟨[(["h", ".browser-use-profiles"], true),
        (["h", ".browser-use-profiles", "b"], true),
        (["h", ".browser-use-profiles", "a"], true),
        (["h", ".browser-use-profiles", "f"], false)]⟩
      ["h"] = Except.ok ["a", "b"] := rfl

example : list_profiles ⟨[]⟩ ["h"] = Except.ok [] := rfl

example :
    browser_with_profile
      ⟨[(["h", ".browser-use-profiles", "gh"], true)]⟩ ["h"] "gh"
      = ProfileOutcome.launch false ["h", ".browser-use-profiles", "gh"] := by decide

/-!
## String-level lemmas
-/

theorem str_data_append (a b : String) : (a ++ b).data = a.data ++ b.data := by
  cases a
  cases b
  rfl

theorem str_mk_data (s : String) : String.mk s.data = s := by
  cases s
  rfl

theorem str_data_eq_nil_iff (s : String) : s.data = [] ↔ s = "" := by
  cases s with
  | mk d =>
    constructor
    · intro h
      simp only at h
      rw [h]
    · intro h
      rw [h]

theorem strEndsWith_append (a t : String) : strEndsWith (a ++ t) t = true := by
  simp only [strEndsWith, str_data_append, decide_eq_true_eq]
  exact List.suffix_append a.data t.data

theorem hasIdSuffix_user (a : String) : hasIdSuffix (a ++ "_USER") = true := by
  simp [hasIdSuffix, strEndsWith_append]

theorem hasIdSuffix_email (a : String) : hasIdSuffix (a ++ "_EMAIL") = true := by
  simp [hasIdSuffix, strEndsWith_append]

theorem dropWhile_all_append {p : Char → Bool} (l l' : List Char)
    (h : ∀ c ∈ l, p c = true) :
    List.dropWhile p (l ++ l') = List.dropWhile p l' := by
  induction l with
  | nil => rfl
  | cons c cs ih =>
    rw [List.cons_append, List.dropWhile_cons, if_pos (h c (List.mem_cons_self c cs))]
    exact ih (fun c' hc' => h c' (List.mem_cons_of_mem _ hc'))

theorem rsplitHead_concat (P : String) (cs : List Char)
    (h : ∀ c ∈ cs, c ≠ '_') :
    rsplitHead (P ++ String.mk ('_' :: cs)) = P := by
  have hdata : (P ++ String.mk ('_' :: cs)).data.reverse
      = cs.reverse ++ ('_' :: P.data.reverse) := by
    rw [str_data_append]
    simp [List.reverse_append]
  have hdrop : (P ++ String.mk ('_' :: cs)).data.reverse.dropWhile
      (fun c => decide (c ≠ '_')) = '_' :: P.data.reverse := by
    rw [hdata, dropWhile_all_append _ _ (by
      intro c hc
      simpa using h c (List.mem_reverse.1 hc))]
    simp [List.dropWhile_cons]
  rw [rsplitHead, hdrop]
  simp [str_mk_data]

theorem rsplitHead_user (P : String) : rsplitHead (P ++ "_USER") = P := by
  have : ("_USER" : String) = String.mk ('_' :: ['U', 'S', 'E', 'R']) := rfl
  rw [this, rsplitHead_concat]
  decide

theorem rsplitHead_email (P : String) : rsplitHead (P ++ "_EMAIL") = P := by
  have : ("_EMAIL" : String) = String.mk ('_' :: ['E', 'M', 'A', 'I', 'L']) := rfl
  rw [this, rsplitHead_concat]
  decide

/-!
## Lemmas about the per-key resolution
-/

theorem optTruthy_false_iff (o : Option String) :
    optTruthy o = false ↔ o = none ∨ o = some "" := by
  cases o with
  | none => simp [optTruthy]
  | some s =>
    simp only [optTruthy, Bool.not_eq_false', List.isEmpty_iff, Option.some.injEq]
    rw [str_data_eq_nil_iff]
    simp

theorem str_data_isEmpty_false (s : String) (h : s ≠ "") :
    s.data.isEmpty = false := by
  rw [Bool.eq_false_iff, Ne, List.isEmpty_iff, str_data_eq_nil_iff]
  exact h

theorem resolveKey_none_of_user (env : List (String × String)) (key : String)
    (h : optTruthy (envGet env key) = false) :
    resolveKey env key = none := by
  rw [resolveKey]
  split
  · rfl
  next u hu =>
    rw [hu] at h
    simp only [optTruthy, Bool.not_eq_false'] at h
    simp [h]

theorem resolveKey_none_of_pass (env : List (String × String)) (key : String)
    (h : optTruthy (envGet env (rsplitHead key ++ "_PASS")) = false) :
    resolveKey env key = none := by
  rw [resolveKey]
  split
  · rfl
  next u hu =>
    split
    · rfl
    next hue =>
      split
      · rfl
      next p hp =>
        rw [hp] at h
        simp only [optTruthy, Bool.not_eq_false'] at h
        simp [h]

theorem resolveKey_none_of_domain (env : List (String × String)) (key : String)
    (h : optTruthy (pyOr (envGet env (rsplitHead key ++ "_DOMAIN"))
      (envGet DOMAIN_MAP (rsplitHead key))) = false) :
    resolveKey env key = none := by
  rw [resolveKey]
  split
  · rfl
  next u hu =>
    split
    · rfl
    next hue =>
      split
      · rfl
      next p hp =>
        split
        · rfl
        next hpe =>
          split
          · rfl
          next d hd =>
            rw [hd] at h
            simp only [optTruthy, Bool.not_eq_false'] at h
            simp [h]

theorem resolveKey_some (env : List (String × String)) (key u p d : String)
    (hu : envGet env key = some u) (hue : u ≠ "")
    (hp : envGet env (rsplitHead key ++ "_PASS") = some p) (hpe : p ≠ "")
    (hd : pyOr (envGet env (rsplitHead key ++ "_DOMAIN"))
      (envGet DOMAIN_MAP (rsplitHead key)) = some d) (hde : d ≠ "") :
    resolveKey env key
      = some (d, [(strLower (rsplitHead key) ++ "_user", u),
                  (strLower (rsplitHead key) ++ "_pass", p)]) := by
  rw [resolveKey, hu, hp, hd]
  simp [str_data_isEmpty_false u hue, str_data_isEmpty_false p hpe,
    str_data_isEmpty_false d hde]

theorem resolveKey_shape (env : List (String × String)) (key : String)
    (dm : String × SubMap) (h : resolveKey env key = some dm) :
    ∃ u p, envGet env key = some u
      ∧ envGet env (rsplitHead key ++ "_PASS") = some p
      ∧ dm.2 = [(strLower (rsplitHead key) ++ "_user", u),
                (strLower (rsplitHead key) ++ "_pass", p)] := by
  rw [resolveKey] at h
  split at h
  · exact absurd h (by simp)
  next u hu =>
    split at h
    · exact absurd h (by simp)
    next hue =>
      split at h
      · exact absurd h (by simp)
      next p hp =>
        split at h
        · exact absurd h (by simp)
        next hpe =>
          split at h
          · exact absurd h (by simp)
          next d hd =>
            split at h
            · exact absurd h (by simp)
            next hde =>
              refine ⟨u, p, hu, hp, ?_⟩
              injection h with h2
              rw [← h2]

/-!
## Lemmas about the loop
-/

theorem senseStep_no_suffix (env : List (String × String))
    (st : List String × Creds) (key : String) (h : hasIdSuffix key = false) :
    senseStep env st key = st := by
  simp [senseStep, h]

theorem senseStep_processed (env : List (String × String))
    (st : List String × Creds) (key : String) (h : rsplitHead key ∈ st.1) :
    senseStep env st key = st := by
  simp [senseStep, h]

theorem senseStep_resolve_none (env : List (String × String))
    (st : List String × Creds) (key : String) (hs : hasIdSuffix key = true)
    (hn : rsplitHead key ∉ st.1) (hr : resolveKey env key = none) :
    senseStep env st key = (rsplitHead key :: st.1, st.2) := by
  simp [senseStep, hs, hn, hr]

theorem senseStep_resolve_some (env : List (String × String))
    (st : List String × Creds) (key : String) (dm : String × SubMap)
    (hs : hasIdSuffix key = true) (hn : rsplitHead key ∉ st.1)
    (hr : resolveKey env key = some dm) :
    senseStep env st key = (rsplitHead key :: st.1, dictSet st.2 dm.1 dm.2) := by
  simp [senseStep, hs, hn, hr]

theorem senseStep_snd_unchanged (env : List (String × String))
    (st : List String × Creds) (key : String)
    (h : hasIdSuffix key = true → resolveKey env key = none) :
    (senseStep env st key).2 = st.2 := by
  rw [senseStep]
  split
  next hs =>
    split
    · rfl
    next hn =>
      rw [h hs]
  · rfl

theorem senseStep_fst_sub (env : List (String × String))
    (st : List String × Creds) (key : String) (x : String) (h : x ∈ st.1) :
    x ∈ (senseStep env st key).1 := by
  rw [senseStep]
  split
  · split
    · exact h
    · split <;> exact List.mem_cons_of_mem _ h
  · exact h

theorem senseStep_fst_self (env : List (String × String))
    (st : List String × Creds) (key : String) (hs : hasIdSuffix key = true) :
    rsplitHead key ∈ (senseStep env st key).1 := by
  rw [senseStep, if_pos hs]
  split
  next h => exact h
  · split <;> exact List.mem_cons_self _ _

theorem senseLoop_nil (env : List (String × String)) (st : List String × Creds) :
    senseLoop env [] st = st := rfl

theorem senseLoop_cons (env : List (String × String)) (k : String)
    (ks : List String) (st : List String × Creds) :
    senseLoop env (k :: ks) st = senseLoop env ks (senseStep env st k) := rfl

theorem senseLoop_append (env : List (String × String)) (ks₁ ks₂ : List String)
    (st : List String × Creds) :
    senseLoop env (ks₁ ++ ks₂) st = senseLoop env ks₂ (senseLoop env ks₁ st) := by
  simp [senseLoop, List.foldl_append]

theorem senseLoop_fst_sub (env : List (String × String)) (ks : List String)
    (st : List String × Creds) (x : String) (h : x ∈ st.1) :
    x ∈ (senseLoop env ks st).1 := by
  induction ks generalizing st with
  | nil => exact h
  | cons k ks ih =>
    rw [senseLoop_cons]
    exact ih _ (senseStep_fst_sub env st k x h)

theorem senseLoop_fst_mem (env : List (String × String)) (ks : List String)
    (st : List String × Creds) (k : String) (hk : k ∈ ks)
    (hs : hasIdSuffix k = true) :
    rsplitHead k ∈ (senseLoop env ks st).1 := by
  induction ks generalizing st with
  | nil => cases hk
  | cons k' ks ih =>
    rw [senseLoop_cons]
    rcases List.mem_cons.1 hk with h | h
    · subst h
      exact senseLoop_fst_sub env ks _ _ (senseStep_fst_self env st k hs)
    · exact ih _ h

theorem senseLoop_snd_unchanged (env : List (String × String)) (ks : List String)
    (st : List String × Creds)
    (h : ∀ k ∈ ks, hasIdSuffix k = true → resolveKey env k = none) :
    (senseLoop env ks st).2 = st.2 := by
  induction ks generalizing st with
  | nil => rfl
  | cons k ks ih =>
    rw [senseLoop_cons]
    rw [ih _ (fun k' hk' => h k' (List.mem_cons_of_mem _ hk'))]
    exact senseStep_snd_unchanged env st k (h k (List.mem_cons_self k ks))

theorem senseLoop_all_no_suffix (env : List (String × String)) (ks : List String)
    (st : List String × Creds) (h : ∀ k ∈ ks, hasIdSuffix k = false) :
    senseLoop env ks st = st := by
  induction ks generalizing st with
  | nil => rfl
  | cons k ks ih =>
    rw [senseLoop_cons, senseStep_no_suffix env st k (h k (List.mem_cons_self k ks))]
    exact ih _ (fun k' hk' => h k' (List.mem_cons_of_mem _ hk'))

theorem senseLoop_middle_skip (env : List (String × String))
    (ks₁ ks₂ : List String) (k₁ k₂ : String) (st : List String × Creds)
    (h1 : hasIdSuffix k₁ = true) (hm : k₁ ∈ ks₁)
    (he : rsplitHead k₂ = rsplitHead k₁) :
    senseLoop env (ks₁ ++ k₂ :: ks₂) st = senseLoop env (ks₁ ++ ks₂) st := by
  rw [senseLoop_append, senseLoop_append, senseLoop_cons]
  rw [senseStep_processed env _ k₂
    (he ▸ senseLoop_fst_mem env ks₁ st k₁ hm h1)]

/-!
## Lemmas about dict assignment
-/

theorem mem_dictSet (cr : Creds) (k : String) (v : SubMap) (x : String × SubMap)
    (h : x ∈ dictSet cr k v) : x ∈ cr ∨ x = (k, v) := by
  rw [dictSet] at h
  split at h
  · obtain ⟨y, hy, hxy⟩ := List.mem_map.1 h
    by_cases hk : y.1 = k
    · right
      rw [← hxy, if_pos hk]
    · left
      rw [← hxy, if_neg hk]
      exact hy
  · rcases List.mem_append.1 h with h' | h'
    · left; exact h'
    · right; simpa using h'

/-- Lookup in the resolver output (reading the returned Python dict). -/
def credGet (cr : Creds) (k : String) : Option SubMap :=
  (cr.find? (fun e => decide (e.1 = k))).map (fun e => e.2)

theorem credGet_map_set (cr : Creds) (k : String) (v : SubMap)
    (h : cr.any (fun e => decide (e.1 = k)) = true) :
    credGet (cr.map (fun e => if e.1 = k then (k, v) else e)) k = some v := by
  induction cr with
  | nil => simp at h
  | cons e cr ih =>
    by_cases hk : e.1 = k
    · simp only [List.map_cons, if_pos hk]
      rw [credGet, List.find?_cons_of_pos _ (by simp)]
      rfl
    · simp only [List.map_cons, if_neg hk]
      rw [credGet, List.find?_cons_of_neg _ (by simpa using hk)]
      rw [List.any_cons, Bool.or_eq_true] at h
      rcases h with h1 | h1
      · exact absurd (of_decide_eq_true h1) hk
      · exact ih h1

theorem credGet_append_single (cr : Creds) (k : String) (v : SubMap)
    (h : cr.any (fun e => decide (e.1 = k)) = false) :
    credGet (cr ++ [(k, v)]) k = some v := by
  induction cr with
  | nil =>
    rw [List.nil_append, credGet, List.find?_cons_of_pos _ (by simp)]
    rfl
  | cons e cr ih =>
    rw [List.any_cons, Bool.or_eq_false_iff] at h
    obtain ⟨he, h'⟩ := h
    rw [List.cons_append, credGet, List.find?_cons_of_neg _ (by simpa using he)]
    exact ih h'

theorem credGet_dictSet_self (cr : Creds) (k : String) (v : SubMap) :
    credGet (dictSet cr k v) k = some v := by
  rw [dictSet]
  split
  next h => exact credGet_map_set cr k v h
  next h => exact credGet_append_single cr k v (by rwa [Bool.not_eq_true] at h)

/-!
## Lemmas about lookups and the static table
-/

theorem envGet_some_mem (env : List (String × String)) (k v : String)
    (h : envGet env k = some v) : ∃ e ∈ env, e.1 = k ∧ e.2 = v := by
  rw [envGet] at h
  cases hf : env.find? (fun e => decide (e.1 = k)) with
  | none => rw [hf] at h; exact absurd h (by simp)
  | some e =>
    rw [hf] at h
    have hm := List.mem_of_find?_eq_some hf
    have hk := List.find?_some hf
    simp only [decide_eq_true_eq] at hk
    simp only [Option.map_some', Option.some.injEq] at h
    exact ⟨e, hm, hk, h⟩

theorem envGet_some_key_mem (env : List (String × String)) (k v : String)
    (h : envGet env k = some v) : k ∈ env.map Prod.fst := by
  obtain ⟨e, he, hk, -⟩ := envGet_some_mem env k v h
  exact List.mem_map.2 ⟨e, he, hk⟩

theorem DOMAIN_MAP_value_ne_empty (P D : String)
    (h : envGet DOMAIN_MAP P = some D) : D ≠ "" := by
  obtain ⟨e, he, -, hv⟩ := envGet_some_mem DOMAIN_MAP P D h
  have hall : ∀ e ∈ DOMAIN_MAP, e.2 ≠ "" := by decide
  exact hv ▸ hall e he

theorem pyOr_none (b : Option String) : pyOr none b = b := by
  simp [pyOr, optTruthy]

theorem pyOr_some_empty (b : Option String) : pyOr (some "") b = b := by
  simp [pyOr, optTruthy]

theorem pyOr_falsy (a b : Option String) (h : optTruthy a = false) :
    pyOr a b = b := by
  simp [pyOr, h]

theorem pyOr_truthy (a b : Option String) (h : optTruthy a = true) :
    pyOr a b = a := by
  simp [pyOr, h]

/-!
## Claims about the credential resolver
-/

/-- Claim C1: for an environment holding `P_USER = u` and `P_PASS = p` with
`u`, `p` non-empty, no `P_DOMAIN` key, `P` mapped to `D` by the static
table, and no other key ending in `_USER` or `_EMAIL`,
`build_sensitive_data` returns exactly the one-domain mapping
`{D: {p_user: u, p_pass: p}}`. -/
theorem build_sensitive_data_single (env : List (String × String)) (P u p D : String)
    (hnd : (env.map Prod.fst).Nodup)
    (hu : envGet env (P ++ "_USER") = some u) (hue : u ≠ "")
    (hp : envGet env (P ++ "_PASS") = some p) (hpe : p ≠ "")
    (hdom : envGet env (P ++ "_DOMAIN") = none)
    (hD : envGet DOMAIN_MAP P = some D)
    (honly : ∀ k ∈ env.map Prod.fst, hasIdSuffix k = true → k = P ++ "_USER") :
    build_sensitive_data env
      = [(D, [(strLower P ++ "_user", u), (strLower P ++ "_pass", p)])] := by
  have hkmem := envGet_some_key_mem env (P ++ "_USER") u hu
  obtain ⟨s, t, hst⟩ := List.append_of_mem hkmem
  have hnd' := hst ▸ hnd
  obtain ⟨-, hnd2, hdisj⟩ := List.nodup_append.1 hnd'
  have hknotins : (P ++ "_USER") ∉ s :=
    fun hin => hdisj hin (List.mem_cons_self _ _)
  have hknotint : (P ++ "_USER") ∉ t := (List.nodup_cons.1 hnd2).1
  have hs_nosuf : ∀ k ∈ s, hasIdSuffix k = false := by
    intro k hk
    cases hb : hasIdSuffix k
    · rfl
    · exfalso
      have hkm : k ∈ env.map Prod.fst := by
        rw [hst]
        exact List.mem_append_left _ hk
      exact hknotins ((honly k hkm hb) ▸ hk)
  have ht_nosuf : ∀ k ∈ t, hasIdSuffix k = false := by
    intro k hk
    cases hb : hasIdSuffix k
    · rfl
    · exfalso
      have hkm : k ∈ env.map Prod.fst := by
        rw [hst]
        exact List.mem_append_right _ (List.mem_cons_of_mem _ hk)
      exact hknotint ((honly k hkm hb) ▸ hk)
  have hres : resolveKey env (P ++ "_USER")
      = some (D, [(strLower P ++ "_user", u), (strLower P ++ "_pass", p)]) := by
    have hrw := rsplitHead_user P
    have := resolveKey_some env (P ++ "_USER") u p D hu hue
      (by rw [hrw]; exact hp) hpe
      (by rw [hrw, hdom, pyOr_none]; exact hD)
      (DOMAIN_MAP_value_ne_empty P D hD)
    rw [hrw] at this
    exact this
  rw [build_sensitive_data, hst, senseLoop_append,
    senseLoop_all_no_suffix env s ([], []) hs_nosuf, senseLoop_cons,
    senseStep_resolve_some env ([], []) (P ++ "_USER") _ (hasIdSuffix_user P)
      (by rw [rsplitHead_user]; exact List.not_mem_nil P) hres,
    senseLoop_all_no_suffix env t _ ht_nosuf]
  simp [dictSet]

/-- Witness for C1 at a concrete environment. -/
theorem build_sensitive_data_single_witness :
    build_sensitive_data
      [("GITHUB_USER", "alice"), ("GITHUB_PASS", "pw"), ("HEADLESS", "true")]
      = [("https://*.github.com", [("github_user", "alice"), ("github_pass", "pw")])] :=
  build_sensitive_data_single
    [("GITHUB_USER", "alice"), ("GITHUB_PASS", "pw"), ("HEADLESS", "true")]
    "GITHUB" "alice" "pw" "https://*.github.com"
    (by decide) (by decide) (by decide) (by decide) (by decide) (by decide)
    (by decide) (by decide)

/-- Claim C5: a prefix whose `_PASS` value is absent or empty is resolved to
nothing, and an environment all of whose identity keys lack a usable
`_PASS` resolves to the empty mapping; the resolver is a total function, so
no error is ever raised. -/
theorem build_sensitive_data_missing_pass :
    (∀ env key, optTruthy (envGet env (rsplitHead key ++ "_PASS")) = false →
      resolveKey env key = none)
    ∧ (∀ env : List (String × String),
        (∀ k ∈ env.map Prod.fst, hasIdSuffix k = true →
          optTruthy (envGet env (rsplitHead k ++ "_PASS")) = false) →
        build_sensitive_data env = []) := by
  constructor
  · exact fun env key h => resolveKey_none_of_pass env key h
  · intro env h
    rw [build_sensitive_data]
    exact senseLoop_snd_unchanged env (env.map Prod.fst) ([], [])
      (fun k hk hs => resolveKey_none_of_pass env k (h k hk hs))

/-- Witness for C5: the incomplete prefix yields the empty mapping. -/
theorem build_sensitive_data_missing_pass_witness :
    build_sensitive_data [("GITHUB_USER", "alice")] = [] :=
  build_sensitive_data_missing_pass.2 [("GITHUB_USER", "alice")] (by decide)

/-- Claim C6: each distinct prefix is processed once: a later key whose
prefix equals the prefix of an earlier identity key is ignored (removing it
from the iteration changes nothing), and a produced entry takes its
identity value from the key that produced it (the first form encountered). -/
theorem build_sensitive_data_dedup :
    (∀ (env : List (String × String)) (ks₁ ks₂ : List String) (k₁ k₂ : String)
      (st : List String × Creds), hasIdSuffix k₁ = true → k₁ ∈ ks₁ →
      rsplitHead k₂ = rsplitHead k₁ →
      senseLoop env (ks₁ ++ k₂ :: ks₂) st = senseLoop env (ks₁ ++ ks₂) st)
    ∧ (∀ (env : List (String × String)) (ks₁ ks₂ : List String) (k₁ k₂ : String),
      hasIdSuffix k₁ = true → k₁ ∈ ks₁ → rsplitHead k₂ = rsplitHead k₁ →
      env.map Prod.fst = ks₁ ++ k₂ :: ks₂ →
      build_sensitive_data env = (senseLoop env (ks₁ ++ ks₂) ([], [])).2)
    ∧ (∀ env key dm, resolveKey env key = some dm →
      ∃ u p, envGet env key = some u
        ∧ envGet env (rsplitHead key ++ "_PASS") = some p
        ∧ dm.2 = [(strLower (rsplitHead key) ++ "_user", u),
                  (strLower (rsplitHead key) ++ "_pass", p)]) := by
  refine ⟨?_, ?_, ?_⟩
  · exact fun env ks₁ ks₂ k₁ k₂ st h1 hm he =>
      senseLoop_middle_skip env ks₁ ks₂ k₁ k₂ st h1 hm he
  · intro env ks₁ ks₂ k₁ k₂ h1 hm he hkeys
    rw [build_sensitive_data, hkeys,
      senseLoop_middle_skip env ks₁ ks₂ k₁ k₂ ([], []) h1 hm he]
  · exact fun env key dm h => resolveKey_shape env key dm h

/-- Witness for C6: with `GITHUB_USER` first, the later `GITHUB_EMAIL` key
is ignored. -/
theorem build_sensitive_data_dedup_witness :
    build_sensitive_data
      [("GITHUB_USER", "a"), ("GITHUB_EMAIL", "b"), ("GITHUB_PASS", "p")]
      = (senseLoop [("GITHUB_USER", "a"), ("GITHUB_EMAIL", "b"), ("GITHUB_PASS", "p")]
          (["GITHUB_USER"] ++ ["GITHUB_PASS"]) ([], [])).2 :=
  build_sensitive_data_dedup.2.1
    [("GITHUB_USER", "a"), ("GITHUB_EMAIL", "b"), ("GITHUB_PASS", "p")]
    ["GITHUB_USER"] ["GITHUB_PASS"] "GITHUB_USER" "GITHUB_EMAIL"
    (by decide) (by decide) (by decide) (by decide)

/-- Claim C9: an identity key whose value is empty marks its prefix as
processed while contributing nothing, any later key with the same prefix is
then skipped, and concretely an empty first-enumerated `_USER` suppresses a
valid later `_EMAIL` for the same prefix. -/
theorem build_sensitive_data_empty_first_identity :
    (∀ (env : List (String × String)) (st : List String × Creds) (key : String),
      hasIdSuffix key = true → rsplitHead key ∉ st.1 →
      optTruthy (envGet env key) = false →
      senseStep env st key = (rsplitHead key :: st.1, st.2))
    ∧ (∀ (env : List (String × String)) (st : List String × Creds) (key : String),
      rsplitHead key ∈ st.1 → senseStep env st key = st)
    ∧ build_sensitive_data
        [("GITHUB_USER", ""), ("GITHUB_EMAIL", "alice"), ("GITHUB_PASS", "pw")] = [] := by
  refine ⟨?_, ?_, by decide⟩
  · intro env st key hs hn hu
    exact senseStep_resolve_none env st key hs hn (resolveKey_none_of_user env key hu)
  · exact fun env st key h => senseStep_processed env st key h

/-- Witness for C9: the two steps at the concrete environment. -/
theorem build_sensitive_data_empty_first_identity_witness :
    senseStep [("GITHUB_USER", ""), ("GITHUB_EMAIL", "alice"), ("GITHUB_PASS", "pw")]
      ([], []) "GITHUB_USER" = (["GITHUB"], [])
    ∧ senseStep [("GITHUB_USER", ""), ("GITHUB_EMAIL", "alice"), ("GITHUB_PASS", "pw")]
      (["GITHUB"], []) "GITHUB_EMAIL" = (["GITHUB"], []) :=
  ⟨build_sensitive_data_empty_first_identity.1 _ ([], []) "GITHUB_USER"
      (by decide) (by decide) (by decide),
   build_sensitive_data_empty_first_identity.2.1 _ (["GITHUB"], []) "GITHUB_EMAIL"
      (by decide)⟩

/-- Claim C10: a `P_DOMAIN` key set to the empty string behaves as if it
were absent: the domain falls back to the static table entry when there is
one, and the prefix is dropped exactly when `P` is missing from the
table. -/
theorem build_sensitive_data_empty_domain_override
    (env : List (String × String)) (P u p : String)
    (hu : envGet env (P ++ "_USER") = some u) (hue : u ≠ "")
    (hp : envGet env (P ++ "_PASS") = some p) (hpe : p ≠ "")
    (hdom : envGet env (P ++ "_DOMAIN") = some "") :
    (∀ D, envGet DOMAIN_MAP P = some D →
      resolveKey env (P ++ "_USER")
        = some (D, [(strLower P ++ "_user", u), (strLower P ++ "_pass", p)]))
    ∧ (envGet DOMAIN_MAP P = none → resolveKey env (P ++ "_USER") = none) := by
  have hrw := rsplitHead_user P
  constructor
  · intro D hD
    have := resolveKey_some env (P ++ "_USER") u p D hu hue
      (by rw [hrw]; exact hp) hpe
      (by rw [hrw, hdom, pyOr_some_empty]; exact hD)
      (DOMAIN_MAP_value_ne_empty P D hD)
    rw [hrw] at this
    exact this
  · intro hD
    apply resolveKey_none_of_domain
    rw [hrw, hdom, pyOr_some_empty, hD]
    rfl

/-- Witness for C10: empty `_DOMAIN` with a known table prefix falls back
to the table, and with an unknown prefix the entry is dropped. -/
theorem build_sensitive_data_empty_domain_override_witness :
    resolveKey [("GITHUB_USER", "u"), ("GITHUB_PASS", "p"), ("GITHUB_DOMAIN", "")]
      "GITHUB_USER"
      = some ("https://*.github.com", [("github_user", "u"), ("github_pass", "p")])
    ∧ resolveKey [("MYAPP_USER", "u"), ("MYAPP_PASS", "p"), ("MYAPP_DOMAIN", "")]
      "MYAPP_USER" = none :=
  ⟨(build_sensitive_data_empty_domain_override _ "GITHUB" "u" "p"
      (by decide) (by decide) (by decide) (by decide) (by decide)).1
      "https://*.github.com" (by decide),
   (build_sensitive_data_empty_domain_override _ "MYAPP" "u" "p"
      (by decide) (by decide) (by decide) (by decide) (by decide)).2 (by decide)⟩

/-- Claim C4 (amended): a `P_DOMAIN` override set to a NON-EMPTY value `dv`
wins over the static table, a prefix outside the table with no truthy
override contributes nothing, and a key resolving to nothing leaves the
credentials unchanged at its loop step. -/
theorem build_sensitive_data_domain_override :
    (∀ (env : List (String × String)) (P u p dv : String),
      envGet env (P ++ "_USER") = some u → u ≠ "" →
      envGet env (P ++ "_PASS") = some p → p ≠ "" →
      envGet env (P ++ "_DOMAIN") = some dv → dv ≠ "" →
      resolveKey env (P ++ "_USER")
        = some (dv, [(strLower P ++ "_user", u), (strLower P ++ "_pass", p)]))
    ∧ (∀ (env : List (String × String)) (P : String),
      optTruthy (envGet env (P ++ "_DOMAIN")) = false →
      envGet DOMAIN_MAP P = none → resolveKey env (P ++ "_USER") = none)
    ∧ (∀ (env : List (String × String)) (st : List String × Creds) (key : String),
      resolveKey env key = none → (senseStep env st key).2 = st.2) := by
  refine ⟨?_, ?_, ?_⟩
  · intro env P u p dv hu hue hp hpe hdom hde
    have hrw := rsplitHead_user P
    have htr : optTruthy (some dv) = true := by
      simp [optTruthy, str_data_isEmpty_false dv hde]
    have := resolveKey_some env (P ++ "_USER") u p dv hu hue
      (by rw [hrw]; exact hp) hpe
      (by rw [hrw, hdom, pyOr_truthy _ _ htr]) hde
    rw [hrw] at this
    exact this
  · intro env P hdom hD
    apply resolveKey_none_of_domain
    rw [rsplitHead_user, pyOr_falsy _ _ hdom, hD]
    rfl
  · intro env st key hr
    exact senseStep_snd_unchanged env st key (fun _ => hr)

/-- Witness for the amended C4. -/
theorem build_sensitive_data_domain_override_witness :
    resolveKey [("GITHUB_USER", "u"), ("GITHUB_PASS", "p"),
        ("GITHUB_DOMAIN", "https://git.corp.example")] "GITHUB_USER"
      = some ("https://git.corp.example",
          [("github_user", "u"), ("github_pass", "p")])
    ∧ resolveKey [("MYAPP_USER", "u"), ("MYAPP_PASS", "p")] "MYAPP_USER" = none :=
  ⟨build_sensitive_data_domain_override.1 _ "GITHUB" "u" "p"
      "https://git.corp.example" (by decide) (by decide) (by decide) (by decide)
      (by decide) (by decide),
   build_sensitive_data_domain_override.2.1 _ "MYAPP" (by decide) (by decide)⟩

/-- Counterexample to C4 as stated: `GITHUB_DOMAIN` is set (to the empty
string), yet its value is not used as the domain key; the static table
entry is used instead. -/
theorem domain_override_set_but_unused :
    envGet [("GITHUB_USER", "u"), ("GITHUB_PASS", "p"), ("GITHUB_DOMAIN", "")]
      "GITHUB_DOMAIN" = some ""
    ∧ build_sensitive_data
        [("GITHUB_USER", "u"), ("GITHUB_PASS", "p"), ("GITHUB_DOMAIN", "")]
        = [("https://*.github.com", [("github_user", "u"), ("github_pass", "p")])]
    ∧ credGet (build_sensitive_data
        [("GITHUB_USER", "u"), ("GITHUB_PASS", "p"), ("GITHUB_DOMAIN", "")]) ""
        = none :=
  ⟨by decide, by decide, by decide⟩

theorem append_user_ne_pass (l : String) : l ++ "_user" ≠ l ++ "_pass" := by
  intro h
  have h1 := congrArg String.data h
  rw [str_data_append, str_data_append] at h1
  exact absurd (List.append_cancel_left h1) (by decide)

theorem senseStep_shape (env : List (String × String))
    (st : List String × Creds) (key : String)
    (hst : ∀ d m, (d, m) ∈ st.2 →
      ∃ pfx u p, m = [(strLower pfx ++ "_user", u), (strLower pfx ++ "_pass", p)]) :
    ∀ d m, (d, m) ∈ (senseStep env st key).2 →
      ∃ pfx u p, m = [(strLower pfx ++ "_user", u), (strLower pfx ++ "_pass", p)] := by
  intro d m hm
  rw [senseStep] at hm
  split at hm
  · split at hm
    · exact hst d m hm
    · split at hm
      · exact hst d m hm
      next dm hdm =>
        rcases mem_dictSet st.2 dm.1 dm.2 (d, m) hm with h | h
        · exact hst d m h
        · obtain ⟨u, p, -, -, hshape⟩ := resolveKey_shape env key dm hdm
          have hm2 : m = dm.2 := by
            have := congrArg Prod.snd h
            simpa using this
          exact ⟨rsplitHead key, u, p, hm2 ▸ hshape⟩
  · exact hst d m hm

theorem senseLoop_shape (env : List (String × String)) (ks : List String)
    (st : List String × Creds)
    (hst : ∀ d m, (d, m) ∈ st.2 →
      ∃ pfx u p, m = [(strLower pfx ++ "_user", u), (strLower pfx ++ "_pass", p)]) :
    ∀ d m, (d, m) ∈ (senseLoop env ks st).2 →
      ∃ pfx u p, m = [(strLower pfx ++ "_user", u), (strLower pfx ++ "_pass", p)] := by
  induction ks generalizing st with
  | nil => exact hst
  | cons k ks ih =>
    rw [senseLoop_cons]
    exact ih _ (senseStep_shape env st k hst)

/-- Claim C2: every sub-map in the resolver output consists of exactly the
two distinct placeholders derived from a single prefix; dict assignment is
last-write-wins at its key; and two prefixes resolving to the same domain
leave only the later prefix's entries for that domain. -/
theorem build_sensitive_data_submap_shape :
    (∀ (env : List (String × String)) (d : String) (m : SubMap),
      (d, m) ∈ build_sensitive_data env →
      ∃ pfx u p, m = [(strLower pfx ++ "_user", u), (strLower pfx ++ "_pass", p)]
        ∧ strLower pfx ++ "_user" ≠ strLower pfx ++ "_pass")
    ∧ (∀ (cr : Creds) (d : String) (v : SubMap),
      credGet (dictSet cr d v) d = some v)
    ∧ build_sensitive_data
        [("GMAIL_EMAIL", "c1"), ("GMAIL_PASS", "c2"),
         ("GOOGLE_USER", "c3"), ("GOOGLE_PASS", "c4")]
      = [("https://*.google.com", [("google_user", "c3"), ("google_pass", "c4")])] := by
  refine ⟨?_, ?_, by decide⟩
  · intro env d m hm
    obtain ⟨pfx, u, p, hshape⟩ := senseLoop_shape env (env.map Prod.fst) ([], [])
      (fun d' m' h' => absurd h' (List.not_mem_nil _)) d m hm
    exact ⟨pfx, u, p, hshape, append_user_ne_pass (strLower pfx)⟩
  · exact fun cr d v => credGet_dictSet_self cr d v

/-- Witness for C2 at the google-domain collision example. -/
theorem build_sensitive_data_submap_shape_witness :
    ∃ pfx u p,
      [("google_user", "c3"), ("google_pass", "c4")]
        = [(strLower pfx ++ "_user", u), (strLower pfx ++ "_pass", p)]
      ∧ strLower pfx ++ "_user" ≠ strLower pfx ++ "_pass" :=
  build_sensitive_data_submap_shape.1
    [("GMAIL_EMAIL", "c1"), ("GMAIL_PASS", "c2"),
     ("GOOGLE_USER", "c3"), ("GOOGLE_PASS", "c4")]
    "https://*.google.com" [("google_user", "c3"), ("google_pass", "c4")]
    (by decide)

/-!
## Claims about the profile store
-/

theorem splitSlash_no_sep (cs : List Char) (h : ∀ c ∈ cs, c ≠ '/') :
    splitSlash cs = [cs] := by
  induction cs with
  | nil => rfl
  | cons c cs ih =>
    simp only [splitSlash]
    rw [if_neg (h c (List.mem_cons_self c cs)),
      ih (fun c' hc' => h c' (List.mem_cons_of_mem _ hc'))]

theorem pathParts_single (name : String) (h1 : name ≠ "") (h2 : name ≠ ".")
    (h3 : ∀ c ∈ name.data, c ≠ '/') : pathParts name = [name] := by
  rw [pathParts, splitSlash_no_sep name.data h3]
  simp [str_mk_data, h1, h2]

theorem pathIsAbs_no_slash (name : String) (h3 : ∀ c ∈ name.data, c ≠ '/') :
    pathIsAbs name = false := by
  rw [pathIsAbs]
  cases hd : name.data with
  | nil => simp [hd]
  | cons c cs =>
    have := h3 c (hd ▸ List.mem_cons_self c cs)
    simp [hd, this]

theorem pathJoin_single (base : List String) (name : String) (h1 : name ≠ "")
    (h2 : name ≠ ".") (h3 : ∀ c ∈ name.data, c ≠ '/') :
    pathJoin base name = base ++ [name] := by
  simp [pathJoin, pathIsAbs_no_slash name h3, pathParts_single name h1 h2 h3]

/-- Claim C8 (amended): `get_profile_path` is a pure function of its inputs
(two calls with the same arguments agree definitionally), and when the
profile name is a single path component (non-empty, not `.`, without a
slash) the final component of the result is the profile name itself. -/
theorem get_profile_path_pure_last (home : List String) (name : String)
    (h1 : name ≠ "") (h2 : name ≠ ".") (h3 : ∀ c ∈ name.data, c ≠ '/') :
    get_profile_path home name = get_profile_path home name
    ∧ (get_profile_path home name).getLast? = some name := by
  refine ⟨rfl, ?_⟩
  rw [get_profile_path, pathJoin_single _ name h1 h2 h3, List.getLast?_concat]

/-- Witness for the amended C8. -/
theorem get_profile_path_pure_last_witness :
    get_profile_path ["home", "u"] "github-2fa" = get_profile_path ["home", "u"] "github-2fa"
    ∧ (get_profile_path ["home", "u"] "github-2fa").getLast? = some "github-2fa" :=
  get_profile_path_pure_last ["home", "u"] "github-2fa"
    (by decide) (by decide) (by decide)

/-- Counterexample to C8 as stated: a profile name containing a slash is
split into two components by the path join, so the final component of the
returned path differs from the name. -/
theorem get_profile_path_slash_name :
    (get_profile_path ["home"] "a/b").getLast? = some "b"
    ∧ (get_profile_path ["home"] "a/b").getLast? ≠ some "a/b" :=
  ⟨by decide, by decide⟩

/-- Claim C3 (amended): the fixture skips exactly when NO filesystem entry
(of any kind) exists at the profile path, and otherwise launches a
non-headless browser rooted at that path.  Directory-ness is not checked:
the source tests `Path.exists()`. -/
theorem browser_with_profile_skip_iff (fs : FS) (home : List String)
    (name : String) :
    (pathExistsFS fs (get_profile_path home name) = false →
      browser_with_profile fs home name
        = ProfileOutcome.skip
            ("Profile " ++ name ++ " not found. Run setup_profile.py first."))
    ∧ (pathExistsFS fs (get_profile_path home name) = true →
      browser_with_profile fs home name
        = ProfileOutcome.launch false (get_profile_path home name)) := by
  constructor <;> intro h <;> simp [browser_with_profile, h]

/-- Witness for the amended C3: both branches at concrete states. -/
theorem browser_with_profile_skip_iff_witness :
    browser_with_profile ⟨[]⟩ ["h"] "gh"
      = ProfileOutcome.skip "Profile gh not found. Run setup_profile.py first."
    ∧ browser_with_profile ⟨[(["h", ".browser-use-profiles", "gh"], true)]⟩ ["h"] "gh"
      = ProfileOutcome.launch false ["h", ".browser-use-profiles", "gh"] :=
  ⟨(browser_with_profile_skip_iff ⟨[]⟩ ["h"] "gh").1 (by decide),
   (browser_with_profile_skip_iff ⟨[(["h", ".browser-use-profiles", "gh"], true)]⟩
      ["h"] "gh").2 (by decide)⟩

/-- Counterexample to C3 as stated: a regular file at the profile path
means the profile directory is absent, yet the fixture does not skip — it
launches, because the source only checks `Path.exists()`. -/
theorem browser_with_profile_file_not_dir :
    isDirFS ⟨[(["h", ".browser-use-profiles", "p1"], false)]⟩
      (get_profile_path ["h"] "p1") = false
    ∧ browser_with_profile ⟨[(["h", ".browser-use-profiles", "p1"], false)]⟩
        ["h"] "p1"
      = ProfileOutcome.launch false ["h", ".browser-use-profiles", "p1"] :=
  ⟨by decide, by decide⟩

theorem charListLe_total (as bs : List Char) :
    charListLe as bs = true ∨ charListLe bs as = true := by
  induction as generalizing bs with
  | nil => left; rfl
  | cons a as ih =>
    cases bs with
    | nil => right; rfl
    | cons b bs =>
      rcases lt_trichotomy a b with h | h | h
      · left; simp [charListLe, h]
      · subst h
        rcases ih bs with h' | h'
        · left; simp [charListLe, lt_irrefl a, h']
        · right; simp [charListLe, lt_irrefl a, h']
      · right; simp [charListLe, h]

theorem charListLe_trans (as bs cs : List Char) (h1 : charListLe as bs = true)
    (h2 : charListLe bs cs = true) : charListLe as cs = true := by
  induction as generalizing bs cs with
  | nil => rfl
  | cons a as ih =>
    cases bs with
    | nil => cases h1
    | cons b bs =>
      cases cs with
      | nil => cases h2
      | cons c cs =>
        rcases lt_trichotomy a b with hab | hab | hab
        · rcases lt_trichotomy b c with hbc | hbc | hbc
          · simp [charListLe, lt_trans hab hbc]
          · subst hbc; simp [charListLe, hab]
          · have hfalse : charListLe (b :: bs) (c :: cs) = false := by
              simp [charListLe, lt_asymm hbc, hbc]
            rw [hfalse] at h2; cases h2
        · subst hab
          have h1' : charListLe as bs = true := by
            simpa [charListLe, lt_irrefl a] using h1
          rcases lt_trichotomy a c with hac | hac | hac
          · simp [charListLe, hac]
          · subst hac
            have h2' : charListLe bs cs = true := by
              simpa [charListLe, lt_irrefl a] using h2
            simp only [charListLe, lt_irrefl a, if_false]
            exact ih bs cs h1' h2'
          · have hfalse : charListLe (a :: bs) (c :: cs) = false := by
              simp [charListLe, lt_asymm hac, hac]
            rw [hfalse] at h2; cases h2
        · have hfalse : charListLe (a :: as) (b :: bs) = false := by
            simp [charListLe, lt_asymm hab, hab]
          rw [hfalse] at h1; cases h1

instance : IsTotal String (fun a b => strLeB a b = true) :=
  ⟨fun a b => charListLe_total a.data b.data⟩

instance : IsTrans String (fun a b => strLeB a b = true) :=
  ⟨fun a b c => charListLe_trans a.data b.data c.data⟩

theorem getLast?_some_decomp (l : List String) (a : String)
    (h : l.getLast? = some a) : l = l.dropLast ++ [a] := by
  induction l with
  | nil => cases h
  | cons x t ih =>
    cases t with
    | nil =>
      simp only [List.getLast?_singleton, Option.some.injEq] at h
      rw [h]
      rfl
    | cons y t' =>
      rw [List.getLast?_cons_cons] at h
      have := ih h
      rw [List.dropLast_cons₂, List.cons_append, ← this]

theorem childName_eq_some_iff (root p : List String) (n : String) :
    childName root p = some n ↔ p = root ++ [n] := by
  rw [childName]
  constructor
  · intro h
    split at h
    next hdl => rw [getLast?_some_decomp p n h, hdl]
    next => cases h
  · intro h
    rw [h, if_pos List.dropLast_concat, List.getLast?_concat]

/-- Claim C7 (amended): when nothing exists at the profile root path the
listing yields the empty sequence; when a directory exists there it yields
exactly the names of the directory entries that are immediate children of
the root, each exactly once per entry, sorted lexicographically; the
concrete two-directories-and-a-file example lists `a` then `b`.  (A
non-directory entry at the root path instead raises, see the
counterexample.) -/
theorem list_profiles_spec :
    (∀ (fs : FS) (home : List String),
      pathExistsFS fs (PROFILES_DIR home) = false →
      list_profiles fs home = Except.ok [])
    ∧ (∀ (fs : FS) (home : List String),
      isDirFS fs (PROFILES_DIR home) = true →
      ∃ l, list_profiles fs home = Except.ok l
        ∧ List.Sorted (fun a b => strLeB a b = true) l
        ∧ ∀ n, n ∈ l ↔ ∃ e ∈ fs.entries, e.2 = true ∧ e.1 = PROFILES_DIR home ++ [n])
    ∧ list_profiles
        ⟨[(["h", ".browser-use-profiles"], true),
          (["h", ".browser-use-profiles", "b"], true),
          (["h", ".browser-use-profiles", "a"], true),
          (["h", ".browser-use-profiles", "f"], false)]⟩ ["h"]
      = Except.ok ["a", "b"] := by
  refine ⟨?_, ?_, rfl⟩
  · intro fs home h
    simp [list_profiles, h]
  · intro fs home h
    have hex : pathExistsFS fs (PROFILES_DIR home) = true := by
      rw [isDirFS] at h
      rw [pathExistsFS]
      obtain ⟨e, he, hpe⟩ := List.any_eq_true.1 h
      have hpe' := (Bool.and_eq_true _ _) ▸ hpe
      exact List.any_eq_true.2 ⟨e, he, hpe'.1⟩
    refine ⟨sortStrs (fs.entries.filterMap
      (fun e => if e.2 then childName (PROFILES_DIR home) e.1 else none)),
      ?_, ?_, ?_⟩
    · simp [list_profiles, hex, h]
    · exact List.sorted_insertionSort _ _
    · intro n
      rw [sortStrs, List.mem_insertionSort, List.mem_filterMap]
      constructor
      · rintro ⟨e, he, hfe⟩
        by_cases hd : e.2 = true
        · rw [if_pos hd] at hfe
          exact ⟨e, he, hd, (childName_eq_some_iff _ _ _).1 hfe⟩
        · rw [if_neg hd] at hfe
          cases hfe
      · rintro ⟨e, he, hd, hp⟩
        refine ⟨e, he, ?_⟩
        rw [if_pos hd]
        exact (childName_eq_some_iff _ _ _).2 hp

/-- Witness for the amended C7: the two general parts at concrete states. -/
theorem list_profiles_spec_witness :
    list_profiles ⟨[]⟩ ["h"] = Except.ok []
    ∧ ∃ l, list_profiles
        ⟨[(["h", ".browser-use-profiles"], true),
          (["h", ".browser-use-profiles", "b"], true)]⟩ ["h"] = Except.ok l
      ∧ List.Sorted (fun a b => strLeB a b = true) l
      ∧ ∀ n, n ∈ l ↔ ∃ e ∈ ([(["h", ".browser-use-profiles"], true),
          (["h", ".browser-use-profiles", "b"], true)] : List (List String × Bool)),
          e.2 = true ∧ e.1 = PROFILES_DIR ["h"] ++ [n] :=
  ⟨list_profiles_spec.1 ⟨[]⟩ ["h"] (by decide),
   list_profiles_spec.2.1
     ⟨[(["h", ".browser-use-profiles"], true),
       (["h", ".browser-use-profiles", "b"], true)]⟩ ["h"] (by decide)⟩

/-- Counterexample to C7 as stated: with a regular file at the root path
the root DIRECTORY does not exist, yet the listing raises
(`iterdir` on a non-directory) instead of yielding an empty result. -/
theorem list_profiles_root_is_file :
    isDirFS ⟨[(["h", ".browser-use-profiles"], false)]⟩ (PROFILES_DIR ["h"]) = false
    ∧ list_profiles ⟨[(["h", ".browser-use-profiles"], false)]⟩ ["h"]
      = Except.error "NotADirectoryError" :=
  ⟨by decide, rfl⟩
